import Mathlib

/-!  Verification of the esa.io API client's request-dispatch core.

The embedding follows `src/esa-client.ts` (class `EsaClient`): the private
`request` method performs team resolution, path templating, query/body
encoding, the fetch exchange, 429 retry, error normalization and response
decoding.  The transport is modelled as a script: a list of `HttpResponse`
values, one consumed per exchange; `request` returns the list of exchanges
it issued, the list of waits it scheduled, and the final outcome.

JavaScript runtime values appearing in request parameters are modelled by
`JsValue` (numbers are modelled as integers: every value the client's call
sites put in a parameter mapping is an integer, a boolean or a string).
-/

namespace Esa

mutual

/-- A JavaScript value as it can appear in a parameter mapping passed to
`EsaClient.request`. -/
inductive JsValue where
  | undef : JsValue
  | null : JsValue
  | bool (b : Bool) : JsValue
  | num (n : Int) : JsValue
  | str (s : String) : JsValue
  | arr (elems : JsItems) : JsValue
  | obj (fields : JsFields) : JsValue

/-- The elements of a JavaScript array value. -/
inductive JsItems where
  | nil : JsItems
  | cons (v : JsValue) (rest : JsItems) : JsItems

/-- The own enumerable properties of a JavaScript object value, in
insertion order (the order `for key in params` and `JSON.stringify`
iterate non-integer string keys). -/
inductive JsFields where
  | nil : JsFields
  | cons (k : String) (v : JsValue) (rest : JsFields) : JsFields

end

mutual

def jsDecEq : (a b : JsValue) → Decidable (a = b)
  | .undef, .undef => isTrue rfl
  | .null, .null => isTrue rfl
  | .bool a, .bool b =>
    match decEq a b with
    | isTrue h => isTrue (h ▸ rfl)
    | isFalse h => isFalse (fun hh => h (JsValue.bool.inj hh))
  | .num a, .num b =>
    match decEq a b with
    | isTrue h => isTrue (h ▸ rfl)
    | isFalse h => isFalse (fun hh => h (JsValue.num.inj hh))
  | .str a, .str b =>
    match decEq a b with
    | isTrue h => isTrue (h ▸ rfl)
    | isFalse h => isFalse (fun hh => h (JsValue.str.inj hh))
  | .arr a, .arr b =>
    match jsItemsDecEq a b with
    | isTrue h => isTrue (h ▸ rfl)
    | isFalse h => isFalse (fun hh => h (JsValue.arr.inj hh))
  | .obj a, .obj b =>
    match jsFieldsDecEq a b with
    | isTrue h => isTrue (h ▸ rfl)
    | isFalse h => isFalse (fun hh => h (JsValue.obj.inj hh))
  | .undef, .null => isFalse (fun h => JsValue.noConfusion h)
  | .undef, .bool _ => isFalse (fun h => JsValue.noConfusion h)
  | .undef, .num _ => isFalse (fun h => JsValue.noConfusion h)
  | .undef, .str _ => isFalse (fun h => JsValue.noConfusion h)
  | .undef, .arr _ => isFalse (fun h => JsValue.noConfusion h)
  | .undef, .obj _ => isFalse (fun h => JsValue.noConfusion h)
  | .null, .undef => isFalse (fun h => JsValue.noConfusion h)
  | .null, .bool _ => isFalse (fun h => JsValue.noConfusion h)
  | .null, .num _ => isFalse (fun h => JsValue.noConfusion h)
  | .null, .str _ => isFalse (fun h => JsValue.noConfusion h)
  | .null, .arr _ => isFalse (fun h => JsValue.noConfusion h)
  | .null, .obj _ => isFalse (fun h => JsValue.noConfusion h)
  | .bool _, .undef => isFalse (fun h => JsValue.noConfusion h)
  | .bool _, .null => isFalse (fun h => JsValue.noConfusion h)
  | .bool _, .num _ => isFalse (fun h => JsValue.noConfusion h)
  | .bool _, .str _ => isFalse (fun h => JsValue.noConfusion h)
  | .bool _, .arr _ => isFalse (fun h => JsValue.noConfusion h)
  | .bool _, .obj _ => isFalse (fun h => JsValue.noConfusion h)
  | .num _, .undef => isFalse (fun h => JsValue.noConfusion h)
  | .num _, .null => isFalse (fun h => JsValue.noConfusion h)
  | .num _, .bool _ => isFalse (fun h => JsValue.noConfusion h)
  | .num _, .str _ => isFalse (fun h => JsValue.noConfusion h)
  | .num _, .arr _ => isFalse (fun h => JsValue.noConfusion h)
  | .num _, .obj _ => isFalse (fun h => JsValue.noConfusion h)
  | .str _, .undef => isFalse (fun h => JsValue.noConfusion h)
  | .str _, .null => isFalse (fun h => JsValue.noConfusion h)
  | .str _, .bool _ => isFalse (fun h => JsValue.noConfusion h)
  | .str _, .num _ => isFalse (fun h => JsValue.noConfusion h)
  | .str _, .arr _ => isFalse (fun h => JsValue.noConfusion h)
  | .str _, .obj _ => isFalse (fun h => JsValue.noConfusion h)
  | .arr _, .undef => isFalse (fun h => JsValue.noConfusion h)
  | .arr _, .null => isFalse (fun h => JsValue.noConfusion h)
  | .arr _, .bool _ => isFalse (fun h => JsValue.noConfusion h)
  | .arr _, .num _ => isFalse (fun h => JsValue.noConfusion h)
  | .arr _, .str _ => isFalse (fun h => JsValue.noConfusion h)
  | .arr _, .obj _ => isFalse (fun h => JsValue.noConfusion h)
  | .obj _, .undef => isFalse (fun h => JsValue.noConfusion h)
  | .obj _, .null => isFalse (fun h => JsValue.noConfusion h)
  | .obj _, .bool _ => isFalse (fun h => JsValue.noConfusion h)
  | .obj _, .num _ => isFalse (fun h => JsValue.noConfusion h)
  | .obj _, .str _ => isFalse (fun h => JsValue.noConfusion h)
  | .obj _, .arr _ => isFalse (fun h => JsValue.noConfusion h)

def jsItemsDecEq : (a b : JsItems) → Decidable (a = b)
  | .nil, .nil => isTrue rfl
  | .cons v r, .cons v2 r2 =>
    match jsDecEq v v2, jsItemsDecEq r r2 with
    | isTrue h1, isTrue h2 => isTrue (h1 ▸ h2 ▸ rfl)
    | isFalse h1, _ => isFalse (fun hh => h1 (JsItems.cons.inj hh).1)
    | _, isFalse h2 => isFalse (fun hh => h2 (JsItems.cons.inj hh).2)
  | .nil, .cons _ _ => isFalse (fun h => JsItems.noConfusion h)
  | .cons _ _, .nil => isFalse (fun h => JsItems.noConfusion h)

def jsFieldsDecEq : (a b : JsFields) → Decidable (a = b)
  | .nil, .nil => isTrue rfl
  | .cons k v r, .cons k2 v2 r2 =>
    match decEq k k2, jsDecEq v v2, jsFieldsDecEq r r2 with
    | isTrue h0, isTrue h1, isTrue h2 => isTrue (h0 ▸ h1 ▸ h2 ▸ rfl)
    | isFalse h0, _, _ => isFalse (fun hh => h0 (JsFields.cons.inj hh).1)
    | _, isFalse h1, _ => isFalse (fun hh => h1 (JsFields.cons.inj hh).2.1)
    | _, _, isFalse h2 => isFalse (fun hh => h2 (JsFields.cons.inj hh).2.2)
  | .nil, .cons _ _ _ => isFalse (fun h => JsFields.noConfusion h)
  | .cons _ _ _, .nil => isFalse (fun h => JsFields.noConfusion h)

end

instance : DecidableEq JsValue := jsDecEq

instance : DecidableEq JsItems := jsItemsDecEq

instance : DecidableEq JsFields := jsFieldsDecEq

/-- The own enumerable properties of an object, as a Lean list (used to
state membership hypotheses about parameter mappings). -/
def fieldsToList : JsFields → List (String × JsValue)
  | .nil => []
  | .cons k v rest => (k, v) :: fieldsToList rest

/-- The value of `Object.keys(params).length` for a plain object: the number of own
enumerable properties, whatever their values (properties whose value is
`undefined` are still counted). -/
def fieldsLength : JsFields → Nat
  | .nil => 0
  | .cons _ _ rest => fieldsLength rest + 1

mutual

/-- JavaScript string coercion `v.toString()`.  `none` models a thrown
`TypeError`: calling `.toString()` on `null` or `undefined` throws.
Booleans give `"true"`/`"false"`, numbers their decimal representation,
plain objects `"[object Object]"`, arrays the comma join of their
elements (`null`/`undefined` elements become the empty string). -/
def jsToString : JsValue → Option String
  | .undef => none
  | .null => none
  | .bool b => some (if b then "true" else "false")
  | .num n => some (toString n)
  | .str s => some s
  | .obj _ => some "[object Object]"
  | .arr xs => some (String.intercalate "," (itemsToStringParts xs))

/-- The per-element strings of `Array.prototype.toString` (join with a
comma; `null` and `undefined` elements contribute the empty string). -/
def itemsToStringParts : JsItems → List String
  | .nil => []
  | .cons v rest => ((jsToString v).getD "") :: itemsToStringParts rest

end

/-- One JSON string-literal escape, as `JSON.stringify` emits it. -/
def jsonEscapeChar (c : Char) : String :=
  if c = '"' then "\\\""
  else if c = '\\' then "\\\\"
  else if c = '\n' then "\\n"
  else if c = '\r' then "\\r"
  else if c = '\t' then "\\t"
  else if c = '\x08' then "\\b"
  else if c = '\x0c' then "\\f"
  else if c.toNat < 32 then
    "\\u00" ++ String.singleton (Char.ofNat (if c.toNat / 16 < 10 then 48 + c.toNat / 16 else 87 + c.toNat / 16))
      ++ String.singleton (Char.ofNat (if c.toNat % 16 < 10 then 48 + c.toNat % 16 else 87 + c.toNat % 16))
  else String.singleton c

/-- A JSON string literal for `s`, double-quoted and escaped. -/
def jsonQuote (s : String) : String :=
  "\"" ++ String.join (s.data.map jsonEscapeChar) ++ "\""

mutual

/-- JavaScript `JSON.stringify(v)`.  `none` models the `undefined` result (the
top-level value is `undefined`; functions/symbols are not modelled).
Inside arrays an `undefined` element serializes as `null`; inside objects
a property whose value is `undefined` is omitted.  Key order and nesting
are preserved. -/
def jsonStringify : JsValue → Option String
  | .undef => none
  | .null => some "null"
  | .bool b => some (if b then "true" else "false")
  | .num n => some (toString n)
  | .str s => some (jsonQuote s)
  | .arr xs => some ("[" ++ String.intercalate "," (itemsJsonParts xs) ++ "]")
  | .obj fs => some ("\x7b" ++ String.intercalate "," (fieldsJsonParts fs) ++ "\x7d")

/-- The serialized elements of a JSON array (an `undefined` element
serializes as `null`). -/
def itemsJsonParts : JsItems → List String
  | .nil => []
  | .cons v rest => ((jsonStringify v).getD "null") :: itemsJsonParts rest

/-- The serialized `"key":value` members of a JSON object; properties
whose value serializes to `undefined` are skipped. -/
def fieldsJsonParts : JsFields → List String
  | .nil => []
  | .cons k v rest =>
    match jsonStringify v with
    | none => fieldsJsonParts rest
    | some s => (jsonQuote k ++ ":" ++ s) :: fieldsJsonParts rest

end

/-- The result of `JSON.stringify` applied to a plain object payload (always produces a
string: a top-level object is never `undefined`). -/
def jsonStringifyObj (fs : JsFields) : String :=
  "\x7b" ++ String.intercalate "," (fieldsJsonParts fs) ++ "\x7d"

/-- The whitespace characters `parseInt` skips before the number (the
ASCII ones; exotic Unicode whitespace is not modelled). -/
def isJsSpace (c : Char) : Bool :=
  c = ' ' || c = '\t' || c = '\n' || c = '\r' || c = '\x0b' || c = '\x0c'

/-- The numeric value of a maximal leading run of decimal digits;
`none` when there is no leading digit (`parseInt` then returns `NaN`). -/
def leadingDigitsValue (cs : List Char) : Option Nat :=
  match cs.takeWhile Char.isDigit with
  | [] => none
  | ds => some (ds.foldl (fun a c => a * 10 + (c.toNat - 48)) 0)

/-- JavaScript `parseInt(s, 10)`: skip leading whitespace, an optional
sign, then read a maximal run of decimal digits; trailing garbage is
ignored.  `none` models the `NaN` result. -/
def parseIntTen (s : String) : Option Int :=
  match s.data.dropWhile isJsSpace with
  | '+' :: rest => (leadingDigitsValue rest).map Int.ofNat
  | '-' :: rest => (leadingDigitsValue rest).map (fun n => -(Int.ofNat n))
  | rest => (leadingDigitsValue rest).map Int.ofNat

/-- First-occurrence literal replacement on character lists, as JavaScript
`String.prototype.replace` with a string pattern does (one occurrence
only; replacement-string `$`-patterns are not modelled, no team name in
this client contains `$`). -/
def listReplaceFirst (pat rep : List Char) : List Char → List Char
  | [] => []
  | c :: cs =>
    if pat.isPrefixOf (c :: cs) then rep ++ (c :: cs).drop pat.length
    else c :: listReplaceFirst pat rep cs

/-- JavaScript `s.replace(pat, rep)` with a string pattern: only the first occurrence
is replaced. -/
def replaceFirst (s pat rep : String) : String :=
  ⟨listReplaceFirst pat.data rep.data s.data⟩

/-- ASCII lower-casing, as `method.toLowerCase()` behaves on the HTTP verb
strings this client uses. -/
def asciiLower (s : String) : String :=
  ⟨s.data.map (fun c => if 'A' ≤ c ∧ c ≤ 'Z' then Char.ofNat (c.toNat + 32) else c)⟩

/-- The UTF-8 bytes of one character (used by the `URLSearchParams`
percent-encoder). -/
def utf8Bytes (c : Char) : List Nat :=
  let n := c.toNat
  if n < 128 then [n]
  else if n < 2048 then [192 + n / 64, 128 + n % 64]
  else if n < 65536 then [224 + n / 4096, 128 + (n / 64) % 64, 128 + n % 64]
  else [240 + n / 262144, 128 + (n / 4096) % 64, 128 + (n / 64) % 64, 128 + n % 64]

/-- An uppercase hex digit. -/
def hexDigitUpper (n : Nat) : Char :=
  Char.ofNat (if n < 10 then 48 + n else 55 + n)

/-- The `application/x-www-form-urlencoded` serialization of one character, as
`URLSearchParams.toString` emits it: space becomes `+`, ASCII
alphanumerics and `*`, `-`, `.`, `_` stay literal, everything else is
percent-encoded byte-wise in uppercase hex. -/
def formUrlEncodeChar (c : Char) : String :=
  if c = ' ' then "+"
  else if c.isAlphanum ∨ c = '*' ∨ c = '-' ∨ c = '.' ∨ c = '_' then String.singleton c
  else String.join ((utf8Bytes c).map (fun b =>
    "%" ++ String.singleton (hexDigitUpper (b / 16)) ++ String.singleton (hexDigitUpper (b % 16))))

/-- The `application/x-www-form-urlencoded` serialization of a string. -/
def formUrlEncode (s : String) : String :=
  String.join (s.data.map formUrlEncodeChar)

/-- The result of `URLSearchParams.toString()` on the appended `key, value` pairs. -/
def urlEncodePairs (qs : List (String × String)) : String :=
  String.intercalate "&" (qs.map (fun kv => formUrlEncode kv.1 ++ "=" ++ formUrlEncode kv.2))

/-!  The client session and the request core. -/

/-- The mutable state of an `EsaClient` as one call observes it: the
bearer token and the current team name (`string | null`; `setTeamName`
can make it the empty string, which every truthiness test then treats
like `null`). -/
structure ClientState where
  token : String
  teamName : Option String
  deriving DecidableEq

/-- JavaScript truthiness of a `string | null | undefined` value: `null`,
`undefined` and the empty string are falsy. -/
def jsTruthy : Option String → Bool
  | none => false
  | some s => s ≠ ""

/-- The `EsaClient` constructor: `this.teamName = options.teamName || null`
(an absent or empty `teamName` option leaves the session team `null`). -/
def mkClient (token : String) (teamName : Option String) : ClientState :=
  ⟨token, if jsTruthy teamName then teamName else none⟩

/-- Method `setTeamName`: unconditionally overwrites the session team. -/
def setTeamName (c : ClientState) (t : String) : ClientState :=
  ⟨c.token, some t⟩

/-- The parameter payload of one call: a plain key→value mapping, or a
`FormData` (multipart) value, whose entries are the appended
name→value pairs.  `FormData` has no own enumerable properties, so
`Object.keys(params).length` is `0` for it. -/
inductive Payload where
  | plain (fields : JsFields)
  | form (entries : List (String × String))
  deriving DecidableEq

/-- The body handed to `fetch`. -/
inductive BodyOut where
  | json (s : String)
  | form (entries : List (String × String))
  deriving DecidableEq

/-- One transport exchange as `fetch` receives it: the method string, the
full URL (query string included), the query pairs appended to
`URLSearchParams` in the GET branch (recorded separately so statements
can speak about them), the body, whether the `Content-Type:
application/json` header is still present (it is deleted in the
`FormData` branch), and the bearer token of the always-attached
`Authorization` header. -/
structure ExchangeRecord where
  method : String
  url : String
  query : Option (List (String × String))
  body : Option BodyOut
  contentTypeJson : Bool
  authToken : String
  deriving DecidableEq

/-- The fixed base origin: `https://api.esa.io/v1`. -/
def baseUrl : String := "https://api.esa.io/v1"

/-- The resolution `const team = teamName || this.teamName` followed by the truthiness
test `team ? ... : path`: the override wins when truthy, else the
session team when truthy, else no team. -/
def resolvedTeam (c : ClientState) (tn : Option String) : Option String :=
  let team := if jsTruthy tn then tn else c.teamName
  if jsTruthy team then team else none

/-- The substitution `team ? path.replace(':team_name', team) : path`. -/
def processedPath (c : ClientState) (path : String) (tn : Option String) : String :=
  match resolvedTeam c tn with
  | some t => replaceFirst path ":team_name" t
  | none => path

/-- The query pairs appended by the GET branch's `for key in params` loop:
entries whose value is strictly `undefined` are skipped by the
`params[key] !== undefined` guard; every other value has `.toString()`
invoked on it.  `none` models the `TypeError` thrown when that value is
`null`. -/
def buildQueryPairs : JsFields → Option (List (String × String))
  | .nil => some []
  | .cons k v rest =>
    if v = JsValue.undef then buildQueryPairs rest
    else
      match jsToString v with
      | none => none
      | some s => (buildQueryPairs rest).map (fun qs => (k, s) :: qs)

/-- The synchronous failure the encoding step can raise before `fetch` is
reached. -/
inductive BuildError where
  | typeError
  deriving DecidableEq

/-- Lines 78-106 of `EsaClient.request`: team resolution, path templating
and verb/shape-directed parameter encoding, producing the exchange
`fetch` is called with.  Branch order follows the source: the GET
branch fires only for a plain mapping (a `FormData` payload has zero
own enumerable keys, so even a GET with `FormData` falls through to
the `instanceof FormData` branch); a non-empty plain mapping on any
other verb is JSON-serialized; an empty one produces no body. -/
def buildRequest (c : ClientState) (method path : String) (params : Payload)
    (tn : Option String) : Except BuildError ExchangeRecord :=
  let url := baseUrl ++ processedPath c path tn
  match params with
  | .plain fields =>
    if asciiLower method = "get" ∧ fieldsLength fields > 0 then
      match buildQueryPairs fields with
      | none => .error .typeError
      | some qs => .ok ⟨method, url ++ "?" ++ urlEncodePairs qs, some qs, none, true, c.token⟩
    else if fieldsLength fields > 0 then
      .ok ⟨method, url, none, some (.json (jsonStringifyObj fields)), true, c.token⟩
    else
      .ok ⟨method, url, none, none, true, c.token⟩
  | .form entries =>
    .ok ⟨method, url, none, some (.form entries), false, c.token⟩

/-- One scripted transport response: the HTTP status, the `retry-after`
header (`none` when absent), the result of `response.json()` (`none`
when parsing throws) and of `response.text()` (`none` when reading
throws). -/
structure HttpResponse where
  status : Nat
  retryAfter : Option String
  jsonBody : Option JsValue
  textBody : Option String
  deriving DecidableEq

/-- The test `response.ok`: status in the 2xx range. -/
def responseOk (s : Nat) : Bool :=
  decide (200 ≤ s ∧ s ≤ 299)

/-- The wait `parseInt(response.headers.get('retry-after') || '60', 10)`: the
fallback `'60'` fires only when the header is absent (`get` returns
`null`) or the empty string — both falsy.  A present but unparsable
header reaches `parseInt` itself and yields `NaN` (modelled `none`);
the scheduled delay is then `NaN` milliseconds, not 60 seconds. -/
def retryAfterSeconds (h : Option String) : Option Int :=
  parseIntTen (match h with
    | none => "60"
    | some v => if v = "" then "60" else v)

/-- The error body of a non-2xx, non-429 response: the parsed JSON body if
`response.json()` succeeds, else the raw text wrapped as a `message`
field (the fixed fallback message when the text is empty or
`response.text()` also throws). -/
def errorBody (r : HttpResponse) : JsValue :=
  match r.jsonBody with
  | some j => j
  | none =>
    match r.textBody with
    | some t =>
      .obj (.cons "message"
        (.str (if t = "" then "Failed to parse error response" else t)) .nil)
    | none => .obj (.cons "message" (.str "Failed to parse error response") .nil)

/-- The decoded body of a 2xx, non-204 response: the parsed JSON, or the
empty object when `response.json()` throws. -/
def successBody (r : HttpResponse) : JsValue :=
  match r.jsonBody with
  | some j => j
  | none => .obj .nil

/-- What a call to the request core finally does. -/
inductive RequestResult where
  | success (data : JsValue)
  | apiError (status : Nat) (data : JsValue)
  | typeError
  | configError (msg : String)
  | noResponse
  deriving DecidableEq

/-- The observable trace of one logical call: the exchanges issued (in
order; each 429 retry re-issues one), the waits scheduled before each
retry (in parsed `retry-after` seconds; `none` is `NaN`), and the
outcome.  `noResponse` marks a run whose response script was exhausted
by retries (the unbounded recursion would issue yet another
exchange). -/
structure CallTrace where
  exchanges : List ExchangeRecord
  waits : List (Option Int)
  outcome : RequestResult
  deriving DecidableEq

/-- Method `EsaClient.request` (lines 72-166): build the exchange (the query
encoding can throw a `TypeError` before any `fetch`), perform it, and
classify the response: 429 waits and recurses with the identical
arguments; any other non-2xx status raises `EsaApiError(status, body)`;
204 resolves with no value (`null`); any other 2xx resolves with the
decoded body, degrading to the empty object when decoding fails. -/
def request (c : ClientState) (method path : String) (params : Payload)
    (tn : Option String) : List HttpResponse → CallTrace
  | [] =>
    match buildRequest c method path params tn with
    | .error _ => ⟨[], [], .typeError⟩
    | .ok ex => ⟨[ex], [], .noResponse⟩
  | r :: rest =>
    match buildRequest c method path params tn with
    | .error _ => ⟨[], [], .typeError⟩
    | .ok ex =>
      if r.status = 429 then
        let t := request c method path params tn rest
        ⟨ex :: t.exchanges, retryAfterSeconds r.retryAfter :: t.waits, t.outcome⟩
      else if responseOk r.status = false then
        ⟨[ex], [], .apiError r.status (errorBody r)⟩
      else if r.status = 204 then
        ⟨[ex], [], .success .null⟩
      else
        ⟨[ex], [], .success (successBody r)⟩

/-!  The leaf methods the claims mention.  Each is a thin declarative
mapping onto `request`, exactly as in the source. -/

/-- Method `getTeam(teamName?)`: GET `/teams/:team_name` with empty params. -/
def getTeam (c : ClientState) (tn : Option String) (rs : List HttpResponse) : CallTrace :=
  request c "get" "/teams/:team_name" (.plain .nil) tn rs

/-- Method `createPost(params, teamName?)`: POST `/teams/:team_name/posts` with
the `{ post: params }` wrapping. -/
def createPost (c : ClientState) (p : JsFields) (tn : Option String)
    (rs : List HttpResponse) : CallTrace :=
  request c "post" "/teams/:team_name/posts" (.plain (.cons "post" (.obj p) .nil)) tn rs

/-- The arguments of `createEmoji`: `code` required, `origin_code` and
`image` optional (the image is appended the same way whether it is a
string or a binary blob; it is modelled by its string content). -/
structure CreateEmojiParams where
  code : String
  origin_code : Option String
  image : Option String
  deriving DecidableEq

/-- The multipart form `createEmoji` assembles: `emoji[code]` always,
`emoji[origin_code]` and `emoji[image]` only when truthy. -/
def emojiFormData (p : CreateEmojiParams) : List (String × String) :=
  [("emoji[code]", p.code)]
    ++ (if jsTruthy p.origin_code then [("emoji[origin_code]", p.origin_code.getD "")] else [])
    ++ (if jsTruthy p.image then [("emoji[image]", p.image.getD "")] else [])

/-- Method `createEmoji(params, teamName?)` (lines 661-691): resolves the team
up front and throws `Error('Team name is required for creating emoji')`
synchronously — before any transport exchange — when none is truthy;
otherwise it posts the multipart form to `/teams/:team_name/emojis`,
passing the resolved team as the override. -/
def createEmoji (c : ClientState) (p : CreateEmojiParams) (tn : Option String)
    (rs : List HttpResponse) : CallTrace :=
  let team := if jsTruthy tn then tn else c.teamName
  if jsTruthy team then
    request c "post" "/teams/:team_name/emojis" (.form (emojiFormData p)) team rs
  else
    ⟨[], [], .configError "Team name is required for creating emoji"⟩

/-!  Spec-side description of the GET query serialization, for the
refinement comparison with `buildQueryPairs`. -/

/-- Modelled from the spec's words ("every entry whose value is not
absent is serialized as a URL query parameter via string coercion;
absent entries are omitted entirely"): keep exactly the entries whose
value is not `undefined`, in order, each string-coerced. -/
def queryPairsSpec (fs : JsFields) : List (String × String) :=
  ((fieldsToList fs).filter (fun kv => kv.2 ≠ JsValue.undef)).map
    (fun kv => (kv.1, (jsToString kv.2).getD ""))

/-!  Helper lemmas. -/

/-- Induction over a field list alone (the mutual recursor's value motive
is not needed: these lemmas never recurse into the values). -/
theorem jsFieldsInduct {motive : JsFields → Prop} (nil : motive .nil)
    (cons : ∀ k v rest, motive rest → motive (.cons k v rest)) : ∀ fs, motive fs
  | .nil => nil
  | .cons k v rest => cons k v rest (jsFieldsInduct nil cons rest)

/-- String coercion throws exactly on `undefined` and `null`. -/
theorem jsToString_eq_none_iff (v : JsValue) :
    jsToString v = none ↔ v = JsValue.undef ∨ v = JsValue.null := by
  cases v <;> simp [jsToString]

/-- The query loop throws a `TypeError` exactly when some entry's value is
`null` (an `undefined` value is filtered before coercion; every other
value coerces). -/
theorem buildQueryPairs_eq_none_iff (fs : JsFields) :
    buildQueryPairs fs = none ↔ ∃ k, (k, JsValue.null) ∈ fieldsToList fs := by
  induction fs using jsFieldsInduct with
  | nil => simp [buildQueryPairs, fieldsToList]
  | cons k v rest ih =>
    by_cases hv : v = JsValue.undef
    · subst hv
      simp [buildQueryPairs, fieldsToList, ih]
    · cases hj : jsToString v with
      | none =>
        have hv2 : v = JsValue.null := by
          rcases (jsToString_eq_none_iff v).mp hj with h | h
          · exact absurd h hv
          · exact h
        subst hv2
        simp [buildQueryPairs, hv, hj, fieldsToList]
      | some s =>
        have hv2 : v ≠ JsValue.null := by
          intro h; subst h; simp [jsToString] at hj
        simp [buildQueryPairs, hv, hj, fieldsToList, ih, Ne.symm hv2]

/-- When no entry's value is `null`, the query loop succeeds and produces
precisely the spec-side pair list: the non-`undefined` entries in
order, string-coerced. -/
theorem buildQueryPairs_eq_spec (fs : JsFields)
    (h : ∀ kv ∈ fieldsToList fs, kv.2 ≠ JsValue.null) :
    buildQueryPairs fs = some (queryPairsSpec fs) := by
  induction fs using jsFieldsInduct with
  | nil => simp [buildQueryPairs, queryPairsSpec, fieldsToList]
  | cons k v rest ih =>
    have hrest : ∀ kv ∈ fieldsToList rest, kv.2 ≠ JsValue.null :=
      fun kv hkv => h kv (by simp [fieldsToList, hkv])
    have hv : v ≠ JsValue.null := by
      have := h (k, v) (by simp [fieldsToList])
      simpa using this
    by_cases hu : v = JsValue.undef
    · subst hu
      simp only [buildQueryPairs, if_pos rfl, ih hrest, Option.some.injEq]
      simp [queryPairsSpec, fieldsToList]
    · cases hj : jsToString v with
      | none =>
        rcases (jsToString_eq_none_iff v).mp hj with h2 | h2
        · exact absurd h2 hu
        · exact absurd h2 hv
      | some s =>
        simp only [buildQueryPairs, if_neg hu, hj, ih hrest, Option.map_some, Option.some.injEq]
        simp [queryPairsSpec, fieldsToList, hu, hj]

/-- No run of the request core ever surfaces a 429 status as an
`apiError`: the 429 branch always waits and recurses instead. -/
theorem request_apiError_status_ne_429 (c : ClientState) (method path : String)
    (params : Payload) (tn : Option String) :
    ∀ rs st d, (request c method path params tn rs).outcome = .apiError st d → st ≠ 429 := by
  intro rs
  induction rs with
  | nil =>
    intro st d h
    cases hb : buildRequest c method path params tn <;> simp [request, hb] at h
  | cons r rest ih =>
    intro st d h
    cases hb : buildRequest c method path params tn with
    | error e => simp [request, hb] at h
    | ok ex =>
      simp only [request, hb] at h
      by_cases h429 : r.status = 429
      · rw [if_pos h429] at h
        exact ih st d (by simpa using h)
      · rw [if_neg h429] at h
        by_cases hok : responseOk r.status = false
        · rw [if_pos hok] at h
          simp only [CallTrace.mk.injEq] at h
          obtain ⟨h1, -⟩ := RequestResult.apiError.inj h
          omega
        · rw [if_neg hok] at h
          by_cases h204 : r.status = 204
          · rw [if_pos h204] at h
            simp at h
          · rw [if_neg h204] at h
            simp at h

/-!  The claims. -/

/-- C1: an HTTP 429 response is never surfaced to the caller as an error:
no run of the request core produces an `apiError` with status 429, and
given a 429 response followed by a 200 response the call resolves with
the second response's decoded body while exactly two transport
exchanges — both the identical exchange built from the same verb, path
template, payload and team override — occur, with one wait scheduled
between them. -/
theorem c1_429_never_surfaced_and_retried
    (c : ClientState) (method path : String) (params : Payload) (tn : Option String)
    (ex : ExchangeRecord) (hb : buildRequest c method path params tn = .ok ex)
    (r1 r2 : HttpResponse) (h1 : r1.status = 429) (h2 : r2.status = 200) :
    (∀ rs st d, (request c method path params tn rs).outcome = .apiError st d → st ≠ 429)
    ∧ request c method path params tn [r1, r2]
        = ⟨[ex, ex], [retryAfterSeconds r1.retryAfter], .success (successBody r2)⟩ := by
  refine ⟨request_apiError_status_ne_429 c method path params tn, ?_⟩
  have hok : responseOk r2.status = true := by rw [h2]; rfl
  have h2429 : r2.status ≠ 429 := by omega
  have h2204 : r2.status ≠ 204 := by omega
  simp [request, hb, h1, h2429, hok, h2204]

/-- Witness for C1: a 429 with `retry-after: 1` then a 200 carrying a
body; the call succeeds with that body after two identical
exchanges. -/
theorem c1_429_never_surfaced_and_retried_witness :
    (∀ rs st d, (request (mkClient "tok" (some "docs")) "get" "/teams" (.plain .nil) none rs).outcome
        = .apiError st d → st ≠ 429)
    ∧ request (mkClient "tok" (some "docs")) "get" "/teams" (.plain .nil) none
        [⟨429, some "1", none, none⟩, ⟨200, none, some (.obj (.cons "ok" (.bool true) .nil)), none⟩]
      = ⟨[⟨"get", "https://api.esa.io/v1/teams", none, none, true, "tok"⟩,
          ⟨"get", "https://api.esa.io/v1/teams", none, none, true, "tok"⟩],
         [some 1], .success (.obj (.cons "ok" (.bool true) .nil))⟩ :=
  c1_429_never_surfaced_and_retried (mkClient "tok" (some "docs")) "get" "/teams" (.plain .nil)
    none ⟨"get", "https://api.esa.io/v1/teams", none, none, true, "tok"⟩ rfl
    ⟨429, some "1", none, none⟩ ⟨200, none, some (.obj (.cons "ok" (.bool true) .nil)), none⟩ rfl rfl

/-- C2 counterexample: for a 429 whose `retry-after` header is present but
unparsable (`soon`), the recorded wait is the `NaN` of
`parseInt('soon', 10)` — not 60 seconds: the `|| '60'` fallback never
fires for a truthy header string. -/
theorem c2_counterexample :
    (request (mkClient "tok" (some "docs")) "get" "/teams" (.plain .nil) none
        [⟨429, some "soon", none, none⟩, ⟨200, none, some (.obj .nil), none⟩]).waits
      = [(none : Option Int)]
    ∧ (none : Option Int) ≠ some 60 := by
  exact ⟨rfl, by simp⟩

/-- C2 (amended): the wait before the retry defaults to 60 seconds when
the `retry-after` header is absent (or empty — both falsy for the
`|| '60'` substitution); when the header is present, non-empty and
unparsable, `parseInt` yields `NaN` and no 60-second wait occurs. -/
theorem c2_retry_wait_semantics :
    (∀ (c : ClientState) (method path : String) (params : Payload) (tn : Option String)
        (ex : ExchangeRecord) (r : HttpResponse) (rest : List HttpResponse),
      buildRequest c method path params tn = .ok ex → r.status = 429 → r.retryAfter = none →
      (request c method path params tn (r :: rest)).waits.head? = some (some 60))
    ∧ retryAfterSeconds none = some 60
    ∧ retryAfterSeconds (some "") = some 60
    ∧ (∀ s, s ≠ "" → parseIntTen s = none → retryAfterSeconds (some s) = none) := by
  refine ⟨?_, rfl, rfl, ?_⟩
  · intro c method path params tn ex r rest hb h429 hra
    simp [request, hb, h429, hra]
    rfl
  · intro s hs hp
    simp [retryAfterSeconds, hs, hp]

/-- Witness for C2 (amended): an absent header waits 60 seconds; the
unparsable header `soon` yields the `NaN` wait. -/
theorem c2_retry_wait_semantics_witness :
    (request (mkClient "tok" (some "docs")) "get" "/teams" (.plain .nil) none
        [⟨429, none, none, none⟩]).waits.head? = some (some 60)
    ∧ retryAfterSeconds (some "soon") = none :=
  ⟨c2_retry_wait_semantics.1 (mkClient "tok" (some "docs")) "get" "/teams" (.plain .nil) none
      ⟨"get", "https://api.esa.io/v1/teams", none, none, true, "tok"⟩
      ⟨429, none, none, none⟩ [] rfl rfl rfl,
   c2_retry_wait_semantics.2.2.2 "soon" (by decide) rfl⟩

/-- C3: every non-2xx, non-429 response fails the call with an `apiError`
carrying the numeric status and a best-effort body: the parsed JSON
body when `response.json()` succeeds, else the raw text wrapped in a
`message` field, else the fixed fallback message. -/
theorem c3_api_error_normalization
    (c : ClientState) (method path : String) (params : Payload) (tn : Option String)
    (ex : ExchangeRecord) (hb : buildRequest c method path params tn = .ok ex)
    (r : HttpResponse) (hfail : responseOk r.status = false) (h429 : r.status ≠ 429) :
    request c method path params tn [r] = ⟨[ex], [], .apiError r.status (errorBody r)⟩
    ∧ (∀ j, r.jsonBody = some j → errorBody r = j)
    ∧ (∀ t, r.jsonBody = none → r.textBody = some t → t ≠ "" →
        errorBody r = .obj (.cons "message" (.str t) .nil))
    ∧ (r.jsonBody = none → (r.textBody = none ∨ r.textBody = some "") →
        errorBody r = .obj (.cons "message" (.str "Failed to parse error response") .nil)) := by
  refine ⟨?_, ?_, ?_, ?_⟩
  · simp [request, hb, h429, hfail]
  · intro j hj
    simp [errorBody, hj]
  · intro t hj ht hne
    simp [errorBody, hj, ht, hne]
  · intro hj hto
    rcases hto with h | h <;> simp [errorBody, hj, h]

/-- Witness for C3: a 404 with the JSON body
`(error: not_found, message: Post not found)` fails with an `apiError`
of status 404 carrying exactly that object. -/
theorem c3_api_error_normalization_witness :
    request (mkClient "tok" (some "docs")) "get" "/teams" (.plain .nil) none
        [⟨404, none,
          some (.obj (.cons "error" (.str "not_found") (.cons "message" (.str "Post not found") .nil))),
          none⟩]
      = ⟨[⟨"get", "https://api.esa.io/v1/teams", none, none, true, "tok"⟩], [],
         .apiError 404
           (.obj (.cons "error" (.str "not_found") (.cons "message" (.str "Post not found") .nil)))⟩ :=
  (c3_api_error_normalization (mkClient "tok" (some "docs")) "get" "/teams" (.plain .nil) none
    ⟨"get", "https://api.esa.io/v1/teams", none, none, true, "tok"⟩ rfl
    ⟨404, none,
      some (.obj (.cons "error" (.str "not_found") (.cons "message" (.str "Post not found") .nil))),
      none⟩ rfl (by decide)).1

/-- C4: a GET call with a non-empty parameter mapping whose values all
coerce (none is `null`; a `null` value throws instead, claim C10)
issues an exchange whose query pairs are exactly the spec-side list —
the non-`undefined` entries in order, string-coerced, with `undefined`
entries omitted entirely — and whose URL appends their
`URLSearchParams` encoding. -/
theorem c4_get_query_exact
    (c : ClientState) (method path : String) (tn : Option String) (fields : JsFields)
    (hget : asciiLower method = "get") (hne : fieldsLength fields > 0)
    (hnull : ∀ kv ∈ fieldsToList fields, kv.2 ≠ JsValue.null) :
    buildRequest c method path (.plain fields) tn
      = .ok ⟨method,
          baseUrl ++ processedPath c path tn ++ "?" ++ urlEncodePairs (queryPairsSpec fields),
          some (queryPairsSpec fields), none, true, c.token⟩ := by
  have hq := buildQueryPairs_eq_spec fields hnull
  simp [buildRequest, hget, hne, hq]

/-- Witness for C4: numbers and booleans stringify, a space
percent-encodes as `+`, and the `undefined` entry is omitted. -/
theorem c4_get_query_exact_witness :
    buildRequest (mkClient "tok" (some "docs")) "get" "/teams/:team_name/posts"
        (.plain (.cons "page" (.num 2) (.cons "wip" (.bool true)
          (.cons "q" (.str "a b") (.cons "include" .undef .nil))))) none
      = .ok ⟨"get", "https://api.esa.io/v1/teams/docs/posts?page=2&wip=true&q=a+b",
          some [("page", "2"), ("wip", "true"), ("q", "a b")], none, true, "tok"⟩ :=
  c4_get_query_exact (mkClient "tok" (some "docs")) "get" "/teams/:team_name/posts" none
    (.cons "page" (.num 2) (.cons "wip" (.bool true)
      (.cons "q" (.str "a b") (.cons "include" .undef .nil))))
    rfl (by decide) (by decide)

/-- C5: a non-GET call with a plain mapping payload sends exactly the
JSON serialization of the mapping as the request body when the mapping
is non-empty (key order and nesting preserved), and no body at all
when it is empty. -/
theorem c5_json_body_exact
    (c : ClientState) (method path : String) (tn : Option String) (fields : JsFields)
    (hng : asciiLower method ≠ "get") :
    (fieldsLength fields > 0 →
      buildRequest c method path (.plain fields) tn
        = .ok ⟨method, baseUrl ++ processedPath c path tn, none,
            some (.json (jsonStringifyObj fields)), true, c.token⟩)
    ∧ buildRequest c method path (.plain .nil) tn
        = .ok ⟨method, baseUrl ++ processedPath c path tn, none, none, true, c.token⟩ := by
  constructor
  · intro hne
    simp [buildRequest, hng, hne]
  · simp [buildRequest, hng, fieldsLength]

/-- Witness for C5: `createPost`-shaped payload; the body is the exact
serialization with the `post` wrapping and nesting preserved. -/
theorem c5_json_body_exact_witness :
    buildRequest (mkClient "tok" (some "docs")) "post" "/teams/:team_name/posts"
        (.plain (.cons "post" (.obj (.cons "name" (.str "T") (.cons "wip" (.bool true) .nil))) .nil))
        none
      = .ok ⟨"post", "https://api.esa.io/v1/teams/docs/posts", none,
          some (.json "\x7b\"post\":\x7b\"name\":\"T\",\"wip\":true\x7d\x7d"), true, "tok"⟩ :=
  (c5_json_body_exact (mkClient "tok" (some "docs")) "post" "/teams/:team_name/posts" none
    (.cons "post" (.obj (.cons "name" (.str "T") (.cons "wip" (.bool true) .nil))) .nil)
    (by decide)).1 (by decide)

/-- C6 counterexample: the claim reads "the effective team is the
teamOverride if provided"; providing the empty-string override is
falsy in `teamName || this.teamName`, so the code resolves the session
default `docs` instead of the provided override. -/
theorem c6_counterexample :
    resolvedTeam (mkClient "tok" (some "docs")) (some "") = some "docs"
    ∧ processedPath (mkClient "tok" (some "docs")) "/teams/:team_name" (some "") = "/teams/docs"
    ∧ ("docs" : String) ≠ "" :=
  ⟨rfl, rfl, by decide⟩

/-- C6 (amended): the effective team is the teamOverride when provided
and non-empty (JS-truthy), else the session default team when truthy,
else none; the path template's team placeholder is replaced by the
effective team and left unsubstituted when none resolves; in
particular `getTeam` with override `acme` issues its exchange against
`/teams/acme` regardless of the session's default team. -/
theorem c6_team_resolution
    (c : ClientState) (tn : Option String) :
    (jsTruthy tn = true → resolvedTeam c tn = tn)
    ∧ (jsTruthy tn = false →
        resolvedTeam c tn = (if jsTruthy c.teamName then c.teamName else none))
    ∧ (resolvedTeam c tn = none → processedPath c "/teams/:team_name" tn = "/teams/:team_name")
    ∧ (∀ (cs : ClientState) (rs : List HttpResponse),
        (getTeam cs (some "acme") rs).exchanges.head?
          = some ⟨"get", "https://api.esa.io/v1/teams/acme", none, none, true, cs.token⟩) := by
  refine ⟨?_, ?_, ?_, ?_⟩
  · intro h
    simp [resolvedTeam, h]
  · intro h
    simp [resolvedTeam, h]
  · intro h
    simp [processedPath, h]
  · intro cs rs
    have hb : buildRequest cs "get" "/teams/:team_name" (.plain .nil) (some "acme")
        = .ok ⟨"get", "https://api.esa.io/v1/teams/acme", none, none, true, cs.token⟩ := rfl
    cases rs with
    | nil => simp [getTeam, request, hb]
    | cons r rest =>
      simp only [getTeam, request, hb]
      by_cases h429 : r.status = 429
      · simp [h429]
      · rw [if_neg h429]
        by_cases hok : responseOk r.status = false
        · rw [if_pos hok]
          rfl
        · rw [if_neg hok]
          by_cases h204 : r.status = 204
          · rw [if_pos h204]
            rfl
          · rw [if_neg h204]
            rfl

/-- Witness for C6 (amended): a truthy override wins, and `getTeam` with
override `acme` targets `/teams/acme` even with session default
`docs`. -/
theorem c6_team_resolution_witness :
    resolvedTeam (mkClient "tok" (some "docs")) (some "acme") = some "acme"
    ∧ (getTeam (mkClient "tok" (some "docs")) (some "acme") []).exchanges.head?
        = some ⟨"get", "https://api.esa.io/v1/teams/acme", none, none, true, "tok"⟩ :=
  ⟨(c6_team_resolution (mkClient "tok" (some "docs")) (some "acme")).1 rfl,
   (c6_team_resolution (mkClient "tok" (some "docs")) (some "acme")).2.2.2
     (mkClient "tok" (some "docs")) []⟩

/-- C7: emoji creation with no resolvable team (override and session
default both falsy — in particular both absent) fails synchronously
with the configuration error and issues zero transport exchanges. -/
theorem c7_emoji_requires_team
    (c : ClientState) (p : CreateEmojiParams) (tn : Option String) (rs : List HttpResponse)
    (htn : jsTruthy tn = false) (hc : jsTruthy c.teamName = false) :
    createEmoji c p tn rs = ⟨[], [], .configError "Team name is required for creating emoji"⟩
    ∧ (createEmoji c p tn rs).exchanges = [] := by
  have h : createEmoji c p tn rs
      = ⟨[], [], .configError "Team name is required for creating emoji"⟩ := by
    simp [createEmoji, htn, hc]
  exact ⟨h, by rw [h]⟩

/-- Witness for C7: no override, no session default. -/
theorem c7_emoji_requires_team_witness :
    createEmoji (mkClient "tok" none) ⟨"smile", none, none⟩ none []
      = ⟨[], [], .configError "Team name is required for creating emoji"⟩
    ∧ (createEmoji (mkClient "tok" none) ⟨"smile", none, none⟩ none []).exchanges = [] :=
  c7_emoji_requires_team (mkClient "tok" none) ⟨"smile", none, none⟩ none [] rfl rfl

/-- C8: a 204 response resolves with the empty/absent value and no decode
is attempted: the outcome is `success null` whatever the response
body fields hold, and unchanged if both body readers are removed. -/
theorem c8_204_no_decode
    (c : ClientState) (method path : String) (params : Payload) (tn : Option String)
    (ex : ExchangeRecord) (hb : buildRequest c method path params tn = .ok ex)
    (r : HttpResponse) (h204 : r.status = 204) (rest : List HttpResponse) :
    request c method path params tn (r :: rest) = ⟨[ex], [], .success .null⟩
    ∧ request c method path params tn (r :: rest)
        = request c method path params tn (⟨204, r.retryAfter, none, none⟩ :: rest) := by
  have key : ∀ (r2 : HttpResponse), r2.status = 204 →
      request c method path params tn (r2 :: rest) = ⟨[ex], [], .success .null⟩ := by
    intro r2 h2
    have h429 : r2.status ≠ 429 := by omega
    have hok : responseOk 204 = true := by decide
    simp [request, hb, h429, h2, hok]
  refine ⟨key r h204, ?_⟩
  rw [key r h204, key ⟨204, r.retryAfter, none, none⟩ rfl]

/-- Witness for C8: the 204 outcome ignores a present (even parsable)
body. -/
theorem c8_204_no_decode_witness :
    request (mkClient "tok" (some "docs")) "delete" "/teams" (.plain .nil) none
        [⟨204, none, some (.obj (.cons "ignored" (.bool true) .nil)), some "ignored"⟩]
      = ⟨[⟨"delete", "https://api.esa.io/v1/teams", none, none, true, "tok"⟩], [], .success .null⟩ :=
  (c8_204_no_decode (mkClient "tok" (some "docs")) "delete" "/teams" (.plain .nil) none
    ⟨"delete", "https://api.esa.io/v1/teams", none, none, true, "tok"⟩ rfl
    ⟨204, none, some (.obj (.cons "ignored" (.bool true) .nil)), some "ignored"⟩ rfl []).1

/-- C9: a 2xx response other than 204 resolves with the decoded body, and
when decoding fails the call still succeeds — with the empty object as
its result — rather than failing. -/
theorem c9_2xx_decode_or_empty
    (c : ClientState) (method path : String) (params : Payload) (tn : Option String)
    (ex : ExchangeRecord) (hb : buildRequest c method path params tn = .ok ex)
    (r : HttpResponse) (hok : responseOk r.status = true) (h204 : r.status ≠ 204)
    (rest : List HttpResponse) :
    (∀ j, r.jsonBody = some j →
      request c method path params tn (r :: rest) = ⟨[ex], [], .success j⟩)
    ∧ (r.jsonBody = none →
      request c method path params tn (r :: rest) = ⟨[ex], [], .success (.obj .nil)⟩) := by
  have hrange : 200 ≤ r.status ∧ r.status ≤ 299 := by
    simpa [responseOk] using hok
  have h429 : r.status ≠ 429 := by omega
  constructor
  · intro j hj
    simp [request, hb, h429, hok, h204, successBody, hj]
  · intro hj
    simp [request, hb, h429, hok, h204, successBody, hj]

/-- Witness for C9: a 200 with a parsed body succeeds with it; a 200
whose body fails to parse succeeds with the empty object. -/
theorem c9_2xx_decode_or_empty_witness :
    request (mkClient "tok" (some "docs")) "get" "/teams" (.plain .nil) none
        [⟨200, none, some (.obj (.cons "name" (.str "docs") .nil)), none⟩]
      = ⟨[⟨"get", "https://api.esa.io/v1/teams", none, none, true, "tok"⟩], [],
         .success (.obj (.cons "name" (.str "docs") .nil))⟩
    ∧ request (mkClient "tok" (some "docs")) "get" "/teams" (.plain .nil) none
        [⟨200, none, none, none⟩]
      = ⟨[⟨"get", "https://api.esa.io/v1/teams", none, none, true, "tok"⟩], [],
         .success (.obj .nil)⟩ :=
  ⟨(c9_2xx_decode_or_empty (mkClient "tok" (some "docs")) "get" "/teams" (.plain .nil) none
      ⟨"get", "https://api.esa.io/v1/teams", none, none, true, "tok"⟩ rfl
      ⟨200, none, some (.obj (.cons "name" (.str "docs") .nil)), none⟩ rfl (by decide) []).1
      (.obj (.cons "name" (.str "docs") .nil)) rfl,
   (c9_2xx_decode_or_empty (mkClient "tok" (some "docs")) "get" "/teams" (.plain .nil) none
      ⟨"get", "https://api.esa.io/v1/teams", none, none, true, "tok"⟩ rfl
      ⟨200, none, none, none⟩ rfl (by decide) []).2 rfl⟩

/-- C10: in the GET query branch an entry is omitted exactly when its
value is strictly `undefined`; every other value — `null`, `false`,
`0`, the empty string included — is retained and has `.toString()`
invoked, so a mapping containing a `null` value throws a `TypeError`
(zero transport exchanges), and `false`, `0`, `""` all serialize. -/
theorem c10_strict_undefined_filter :
    (∀ fs, buildQueryPairs fs = none ↔ ∃ k, (k, JsValue.null) ∈ fieldsToList fs)
    ∧ (∀ (c : ClientState) (path : String) (tn : Option String) (rs : List HttpResponse)
        (fs : JsFields) (k : String), (k, JsValue.null) ∈ fieldsToList fs →
        request c "get" path (.plain fs) tn rs = ⟨[], [], .typeError⟩)
    ∧ (∀ fs, (∀ kv ∈ fieldsToList fs, kv.2 ≠ JsValue.null) →
        buildQueryPairs fs = some (queryPairsSpec fs))
    ∧ buildQueryPairs (.cons "a" (.bool false) (.cons "b" (.num 0)
        (.cons "c" (.str "") (.cons "d" .undef .nil))))
      = some [("a", "false"), ("b", "0"), ("c", "")] := by
  refine ⟨buildQueryPairs_eq_none_iff, ?_, buildQueryPairs_eq_spec, rfl⟩
  intro c path tn rs fs k hk
  have hnone : buildQueryPairs fs = none := (buildQueryPairs_eq_none_iff fs).mpr ⟨k, hk⟩
  have hlen : fieldsLength fs > 0 := by
    cases fs with
    | nil => simp [fieldsToList] at hk
    | cons k2 v2 rest =>
      simp only [fieldsLength]
      omega
  have hg : asciiLower "get" = "get" := rfl
  have hb : buildRequest c "get" path (.plain fs) tn = .error .typeError := by
    simp [buildRequest, hnone, hlen, hg]
  cases rs with
  | nil => simp [request, hb]
  | cons r rest => simp [request, hb]

/-- Witness for C10: a GET whose mapping has a `null`-valued entry throws
before any exchange. -/
theorem c10_strict_undefined_filter_witness :
    request (mkClient "tok" (some "docs")) "get" "/teams/:team_name/posts"
        (.plain (.cons "q" .null .nil)) none [⟨200, none, some (.obj .nil), none⟩]
      = ⟨[], [], .typeError⟩ :=
  c10_strict_undefined_filter.2.1 (mkClient "tok" (some "docs")) "/teams/:team_name/posts" none
    [⟨200, none, some (.obj .nil), none⟩] (.cons "q" .null .nil) "q" (by decide)

end Esa
